import Mathlib

/-!
# Verification of `src/offline_audio_context.rs`

A shallow embedding of the thread-safe listener registry and lifecycle
machinery of `NapiOfflineAudioContext`.  The registry is
`tsfn_store : Arc<Mutex<HashMap<String, ThreadsafeFunction<Event>>>>`;
operations are `store_thread_safe_listener` (register),
`clear_thread_safe_listener` (unregister), `clear_all_thread_safe_listeners`
(drain), plus the event wiring `init_event_target`, the JS `constructor`
and `get_length`.

Modelling choices:
* `String` uuid keys are modelled as naturals drawn from a fresh counter
  (`Uuid::new_v4` freshness, which the spec treats as collision-free).
* A `ThreadsafeFunction` (and all of its clones) is identified by a natural
  `hid`; the underlying napi object's aborted/alive status is shared by all
  clones, so it lives in the world state (`revoked`), not in the value.
* `tsfn.abort()` is fallible in napi (aborting an already-aborted function
  returns an error); the model returns the error alongside the new state and
  the callers discard it (`let _ = tsfn.abort()` in the source).
* `abortLog` records every `abort()` call, so "revoked exactly once" is the
  count of a handle in the log.
* The `std::thread::sleep` at the top of the two clear operations has no
  effect on the sequential state and is not modelled; the mutex makes each
  operation atomic, which the sequential model reflects by making each
  operation a single step.
-/

/-- `web_audio_api::Event`: carries the event type string (`type_`). -/
structure Event where
  type_ : String
deriving DecidableEq, Repr

/-- The mutable state reachable from one `NapiOfflineAudioContext`:
the `tsfn_store` map (store-id key, handle id value), the shared
aborted-status of the threadsafe functions, an audit log of `abort()` calls,
the fresh-id counters, the engine's installed event handlers, and the list
of events actually enqueued to the JS thread. -/
structure World where
  /-- fresh-uuid counter: `Uuid::new_v4` modelled as a counter -/
  nextStoreId : Nat
  /-- the `HashMap<String, ThreadsafeFunction<Event>>`, as an assoc list -/
  tsfn_store : List (Nat × Nat)
  /-- fresh counter for `env.create_threadsafe_function` identities -/
  nextHid : Nat
  /-- handle ids whose underlying threadsafe function has been aborted -/
  revoked : List Nat
  /-- every `abort()` call, in order, by handle id (failed calls included) -/
  abortLog : List Nat
  /-- the engine's `onstatechange` handler: the captured tsfn clone's id -/
  onstatechange : Option Nat
  /-- whether `set_oncomplete` installed the clear-all closure -/
  oncompleteClear : Bool
  /-- events successfully enqueued for delivery to the JS thread -/
  delivered : List Event
deriving DecidableEq, Repr

/-- `HashMap` lookup on the assoc-list model. -/
def lookupStore : List (Nat × Nat) → Nat → Option Nat
  | [], _ => none
  | p :: rest, k => if p.1 = k then some p.2 else lookupStore rest k

/-- `HashMap::remove` on the assoc-list model (keys are unique in a
`HashMap`; the model removes the first matching entry). -/
def eraseStore : List (Nat × Nat) → Nat → List (Nat × Nat)
  | [], _ => []
  | p :: rest, k => if p.1 = k then rest else p :: eraseStore rest k

/-- `HashMap::insert`: overwrite the entry if the key is present, otherwise
add a new entry. -/
def insertStore (s : List (Nat × Nat)) (k v : Nat) : List (Nat × Nat) :=
  if (lookupStore s k).isSome then
    s.map (fun p => if p.1 = k then (k, v) else p)
  else
    (k, v) :: s

/-- `tsfn.abort()`: marks the underlying threadsafe function aborted and
returns `Ok`; aborting an already-aborted function is an error (napi status
`Closing`) and changes nothing.  Every call is recorded in the log. -/
def abortTsfn (w : World) (h : Nat) : World × Except Unit Unit :=
  if h ∈ w.revoked then
    ({ w with abortLog := w.abortLog ++ [h] }, Except.error ())
  else
    ({ w with revoked := h :: w.revoked, abortLog := w.abortLog ++ [h] },
     Except.ok ())

/-- `store_thread_safe_listener`: under the lock, generate a fresh uuid,
insert `(uuid, tsfn)` and return the uuid. -/
def store_thread_safe_listener (w : World) (tsfn : Nat) : World × Nat :=
  ({ w with
      nextStoreId := w.nextStoreId + 1,
      tsfn_store := insertStore w.tsfn_store w.nextStoreId tsfn },
   w.nextStoreId)

/-- `clear_thread_safe_listener(store_id)`: under the lock, remove the entry
for `store_id` if present and abort the removed handle, discarding the
result of `abort()` (`let _ = tsfn.abort()`). -/
def clear_thread_safe_listener (w : World) (store_id : Nat) : World :=
  match lookupStore w.tsfn_store store_id with
  | some tsfn => (abortTsfn { w with tsfn_store := eraseStore w.tsfn_store store_id } tsfn).1
  | none => w

/-- `clear_all_thread_safe_listeners`: under the lock, drain the map and
abort every drained handle, discarding each `abort()` result. -/
def clear_all_thread_safe_listeners (w : World) : World :=
  (w.tsfn_store.map Prod.snd).foldl (fun acc h => (abortTsfn acc h).1)
    { w with tsfn_store := [] }

/-- `env.create_threadsafe_function`: a fresh threadsafe function identity. -/
def create_threadsafe_function (w : World) : World × Nat :=
  ({ w with nextHid := w.nextHid + 1 }, w.nextHid)

/-- `tsfn.call(Ok(e), NonBlocking)`: enqueue the event for the JS thread
unless the underlying function has been aborted, in which case nothing is
delivered (napi returns status `Closing`).  The boolean reports whether the
event was enqueued. -/
def callTsfn (w : World) (h : Nat) (e : Event) : World × Bool :=
  if h ∈ w.revoked then (w, false)
  else ({ w with delivered := w.delivered ++ [e] }, true)

/-- `init_event_target`: create a threadsafe function from the JS dispatch
function, store a clone of it (discarding the returned store id), install the
`onstatechange` handler that calls the tsfn, and install the `oncomplete`
handler that calls `clear_all_thread_safe_listeners`. -/
def init_event_target (w : World) : World :=
  let c := create_threadsafe_function w
  let s := store_thread_safe_listener c.1 c.2
  { s.1 with onstatechange := some c.2, oncompleteClear := true }

/-- The engine fires a state-change event: the installed `onstatechange`
closure calls its captured tsfn clone.  The boolean reports delivery. -/
def fire_statechange (w : World) (e : Event) : World × Bool :=
  match w.onstatechange with
  | some h => callTsfn w h e
  | none => (w, false)

/-- The engine signals render completion: the installed `oncomplete` closure
calls `clear_all_thread_safe_listeners` on the (cloned) context. -/
def fire_complete (w : World) : World :=
  if w.oncompleteClear then clear_all_thread_safe_listeners w else w

/-- The world of a freshly constructed context: `tsfn_store: Arc::new(HashMap::new().into())`,
no handlers installed, nothing aborted or delivered. -/
def emptyWorld : World :=
  { nextStoreId := 0, tsfn_store := [], nextHid := 0, revoked := [],
    abortLog := [], onstatechange := none, oncompleteClear := false,
    delivered := [] }


-- ------------------------------------------------------------------
-- Invariants, lifecycle states, and the remaining source functions
-- ------------------------------------------------------------------

/-- Freshness of the uuid counter: every key currently in the store was
produced by an earlier state of the counter.  Every world reachable from
`emptyWorld` satisfies this. -/
def StoreFresh (w : World) : Prop :=
  ∀ p ∈ w.tsfn_store, p.1 < w.nextStoreId

/-- The registry invariant: every registered handle is still active (its
underlying threadsafe function not aborted), registered handles are pairwise
distinct threadsafe functions, keys are unique (as in a `HashMap`), and the
uuid counter is fresh. -/
def RegInv (w : World) : Prop :=
  (∀ p ∈ w.tsfn_store, p.2 ∉ w.revoked) ∧
  (w.tsfn_store.map Prod.snd).Nodup ∧
  (w.tsfn_store.map Prod.fst).Nodup ∧
  StoreFresh w

instance (w : World) : Decidable (StoreFresh w) := by
  unfold StoreFresh
  infer_instance

instance (w : World) : Decidable (RegInv w) := by
  unfold RegInv
  infer_instance

/-- The terminal `Closed` state of the controller (spec, Data model): the
registry is drained and an engine state-change notification is delivered to
no one — firing one returns the world unchanged and reports non-delivery. -/
def Closed (w : World) : Prop :=
  w.tsfn_store = [] ∧ ∀ e : Event, fire_statechange w e = (w, false)

/-- Dropping the last reference to the controller: the source defines no
`Drop` implementation for `NapiOfflineAudioContext` (one exists only as a
commented-out debug print), so dropping the struct just drops its fields.
The `HashMap` and the `ThreadsafeFunction` values in it are dropped without
any call to `abort()`: the map ceases to exist while `revoked` and
`abortLog` are untouched by code of this repository. -/
def drop_controller (w : World) : World :=
  { w with tsfn_store := [] }

/-- `n` successive calls of `init_event_target` (the `__initEventTarget__`
method). -/
def iterInit : Nat → World → World
  | 0, w => w
  | n + 1, w => init_event_target (iterInit n w)

/-- A JS number argument as seen after `get_double()`: either NaN or a real
value (modelled as a rational; every finite double is rational). -/
inductive JsNum where
  | nan : JsNum
  | val : ℚ → JsNum
deriving DecidableEq, Repr

/-- `usize::MAX` on a 64-bit target. -/
def usizeMax : Nat := 2 ^ 64 - 1

/-- Rust `f64 as usize` (a saturating cast since Rust 1.45): NaN becomes 0,
the value is truncated toward zero, and the result is clamped into
`[0, usize::MAX]`. -/
def f64_as_usize : JsNum → Nat
  | JsNum.nan => 0
  | JsNum.val q => if q < 0 then 0 else min (Int.toNat ⌊q⌋) usizeMax

/-- Modelled from the spec: `OfflineAudioContext` is the rendering engine
from the external `web_audio_api` crate, not part of this repository.  Per
the spec it is an external collaborator "instantiated synchronously from
three parameters: channel count, frame length, sample rate", and `length()`
is a "pure read of the engine's configured output length".  The model stores
the construction parameters; its `length` field is read back by the getter. -/
structure OfflineAudioContext where
  numberOfChannels : Nat
  length : Nat
  sampleRate : JsNum
deriving DecidableEq, Repr

/-- Modelled from the spec: `OfflineAudioContext::new(number_of_channels,
length, sample_rate)` stores the three already-coerced parameters. -/
def OfflineAudioContext.new (number_of_channels length : Nat)
    (sample_rate : JsNum) : OfflineAudioContext :=
  { numberOfChannels := number_of_channels, length := length,
    sampleRate := sample_rate }

/-- The napi wrapper: an engine reference plus the mutable state (the
`tsfn_store` and event wiring). -/
structure NapiOfflineAudioContext where
  context : OfflineAudioContext
  world : World
deriving DecidableEq, Repr

/-- The JS `constructor`: reads the three arguments as doubles, coerces the
first two with `as usize`, hands the coerced values to the engine without
validating them itself, and wraps the engine with a fresh empty
`tsfn_store`.  The `f64 as f32` narrowing of the sample rate is passed
through unmodelled (its rounding is a floating-point detail no claim
touches). -/
def constructor (number_of_channels_arg length_arg sample_rate_arg : JsNum) :
    NapiOfflineAudioContext :=
  { context := OfflineAudioContext.new (f64_as_usize number_of_channels_arg)
      (f64_as_usize length_arg) sample_rate_arg,
    world := emptyWorld }

/-- `get_length`: unwraps the napi object and returns `obj.length() as f64`.
(`usize as f64` is exact below `2^53`; the model returns the natural number
the double represents.)  The unchanged context is returned alongside to
express that the getter is a pure read. -/
def get_length (napi_obj : NapiOfflineAudioContext) :
    Nat × NapiOfflineAudioContext :=
  (napi_obj.context.length, napi_obj)


/-- A sample registry state for exercising the theorems on concrete input:
two listeners registered under fresh uuids, nothing revoked, both engine
handlers installed. -/
def sampleWorld : World :=
  { nextStoreId := 2, tsfn_store := [(0, 10), (1, 11)], nextHid := 12,
    revoked := [], abortLog := [], onstatechange := some 10,
    oncompleteClear := true, delivered := [] }

/-- A sample state whose single registered handle has already been aborted
(the registry invariant deliberately broken), for exercising the
error-discarding paths of the clear operations. -/
def sampleRevokedWorld : World :=
  { nextStoreId := 1, tsfn_store := [(0, 10)], nextHid := 11,
    revoked := [10], abortLog := [10], onstatechange := some 10,
    oncompleteClear := true, delivered := [] }

/-- The non-integer rational 5/2, written as an explicit
numerator/denominator pair so proofs can evaluate it by kernel reduction. -/
def q52 : ℚ := ⟨5, 2, by decide, by decide⟩

-- ------------------------------------------------------------------
-- Basic lemmas about the registry operations
-- ------------------------------------------------------------------

theorem abortTsfn_fst (w : World) (h : Nat) :
    (abortTsfn w h).1 =
      { w with revoked := if h ∈ w.revoked then w.revoked else h :: w.revoked,
               abortLog := w.abortLog ++ [h] } := by
  unfold abortTsfn
  split <;> simp_all

theorem abortTsfn_tsfn_store (w : World) (h : Nat) :
    (abortTsfn w h).1.tsfn_store = w.tsfn_store := by
  rw [abortTsfn_fst]

theorem abortTsfn_mem_revoked (w : World) (h h' : Nat) :
    h' ∈ (abortTsfn w h).1.revoked ↔ h' = h ∨ h' ∈ w.revoked := by
  rw [abortTsfn_fst]
  by_cases hm : h ∈ w.revoked <;> simp [hm]
  exact fun he => he ▸ hm

/-- Shape of the drain fold: it only touches `revoked` and `abortLog`. -/
theorem drainFold_spec (hs : List Nat) (w : World) :
    (hs.foldl (fun acc h => (abortTsfn acc h).1) w) =
      { w with revoked := hs.foldl (fun r h => if h ∈ r then r else h :: r) w.revoked,
               abortLog := w.abortLog ++ hs } := by
  induction hs generalizing w with
  | nil => simp
  | cons h t ih =>
      simp only [List.foldl_cons]
      rw [ih, abortTsfn_fst]
      simp

theorem mem_revokedFold (hs : List Nat) (r : List Nat) (x : Nat) :
    x ∈ hs.foldl (fun r h => if h ∈ r then r else h :: r) r ↔ x ∈ hs ∨ x ∈ r := by
  induction hs generalizing r with
  | nil => simp
  | cons h t ih =>
      simp only [List.foldl_cons]
      rw [ih]
      by_cases hm : h ∈ r <;> simp [hm]
      · constructor
        · tauto
        · rintro ((rfl | hx) | hx)
          · exact Or.inr hm
          · exact Or.inl hx
          · exact Or.inr hx
      · tauto

theorem clear_all_tsfn_store (w : World) :
    (clear_all_thread_safe_listeners w).tsfn_store = [] := by
  unfold clear_all_thread_safe_listeners
  rw [drainFold_spec]

theorem clear_all_abortLog (w : World) :
    (clear_all_thread_safe_listeners w).abortLog =
      w.abortLog ++ w.tsfn_store.map Prod.snd := by
  unfold clear_all_thread_safe_listeners
  rw [drainFold_spec]

theorem clear_all_mem_revoked (w : World) (x : Nat) :
    x ∈ (clear_all_thread_safe_listeners w).revoked ↔
      x ∈ w.tsfn_store.map Prod.snd ∨ x ∈ w.revoked := by
  unfold clear_all_thread_safe_listeners
  rw [drainFold_spec]
  exact mem_revokedFold _ _ _

theorem clear_all_preserves (w : World) :
    (clear_all_thread_safe_listeners w).nextStoreId = w.nextStoreId ∧
    (clear_all_thread_safe_listeners w).nextHid = w.nextHid ∧
    (clear_all_thread_safe_listeners w).onstatechange = w.onstatechange ∧
    (clear_all_thread_safe_listeners w).oncompleteClear = w.oncompleteClear ∧
    (clear_all_thread_safe_listeners w).delivered = w.delivered := by
  unfold clear_all_thread_safe_listeners
  rw [drainFold_spec]
  simp

theorem clear_all_of_empty (w : World) (hw : w.tsfn_store = []) :
    clear_all_thread_safe_listeners w = w := by
  unfold clear_all_thread_safe_listeners
  rw [hw, drainFold_spec]
  cases w
  simp_all

-- ------------------------------------------------------------------
-- Lemmas about lookup / erase / insert on the store
-- ------------------------------------------------------------------

theorem lookupStore_mem {s : List (Nat × Nat)} {k v : Nat}
    (h : lookupStore s k = some v) : (k, v) ∈ s := by
  induction s with
  | nil => simp [lookupStore] at h
  | cons p rest ih =>
      obtain ⟨a, b⟩ := p
      by_cases hk : a = k
      · simp only [lookupStore, if_pos hk] at h
        injection h with h
        subst hk
        subst h
        exact List.mem_cons_self _ _
      · simp only [lookupStore, if_neg hk] at h
        exact List.mem_cons_of_mem _ (ih h)

theorem lookupStore_eq_none {s : List (Nat × Nat)} {k : Nat}
    (h : ∀ p ∈ s, p.1 ≠ k) : lookupStore s k = none := by
  induction s with
  | nil => rfl
  | cons p rest ih =>
      have hp : p.1 ≠ k := h p (List.mem_cons_self p rest)
      simp only [lookupStore, if_neg hp]
      exact ih fun q hq => h q (List.mem_cons_of_mem _ hq)

theorem eraseStore_sublist (s : List (Nat × Nat)) (k : Nat) :
    (eraseStore s k).Sublist s := by
  induction s with
  | nil => simp [eraseStore]
  | cons p rest ih =>
      by_cases hk : p.1 = k
      · simp only [eraseStore, if_pos hk]
        exact (List.sublist_cons_self p rest)
      · simp only [eraseStore, if_neg hk]
        exact ih.cons₂ p

theorem mem_of_mem_eraseStore {s : List (Nat × Nat)} {k : Nat} {p : Nat × Nat}
    (h : p ∈ eraseStore s k) : p ∈ s :=
  (eraseStore_sublist s k).mem h

theorem eraseStore_of_lookup_none {s : List (Nat × Nat)} {k : Nat}
    (h : lookupStore s k = none) : eraseStore s k = s := by
  induction s with
  | nil => rfl
  | cons p rest ih =>
      by_cases hk : p.1 = k
      · simp [lookupStore, hk] at h
      · simp only [lookupStore, if_neg hk] at h
        simp only [eraseStore, if_neg hk, ih h]

/-- After erasing key `k` from a store with no duplicate keys, `k` is gone. -/
theorem lookupStore_eraseStore_self {s : List (Nat × Nat)} {k : Nat}
    (hnd : (s.map Prod.fst).Nodup) : lookupStore (eraseStore s k) k = none := by
  induction s with
  | nil => rfl
  | cons p rest ih =>
      simp only [List.map_cons, List.nodup_cons] at hnd
      by_cases hk : p.1 = k
      · simp only [eraseStore, if_pos hk]
        apply lookupStore_eq_none
        intro q hq hqk
        exact hnd.1 (hk ▸ hqk ▸ List.mem_map_of_mem Prod.fst hq)
      · simp only [eraseStore, if_neg hk, lookupStore, if_neg hk]
        exact ih hnd.2

/-- The entry found by `lookupStore` is exactly the one removed by
`eraseStore`: every surviving entry of a no-duplicate-handles store carries
a handle different from the removed one. -/
theorem mem_eraseStore_ne_handle {s : List (Nat × Nat)} {k v : Nat}
    (hlk : lookupStore s k = some v) (hnd : (s.map Prod.snd).Nodup) :
    ∀ p ∈ eraseStore s k, p ∈ s ∧ p.2 ≠ v := by
  induction s with
  | nil => simp [lookupStore] at hlk
  | cons q rest ih =>
      simp only [List.map_cons, List.nodup_cons] at hnd
      intro p hp
      by_cases hk : q.1 = k
      · simp only [lookupStore, if_pos hk] at hlk
        injection hlk with hlk
        simp only [eraseStore, if_pos hk] at hp
        refine ⟨List.mem_cons_of_mem _ hp, ?_⟩
        intro hv
        exact hnd.1 (hlk ▸ hv ▸ List.mem_map_of_mem Prod.snd hp)
      · simp only [lookupStore, if_neg hk] at hlk
        simp only [eraseStore, if_neg hk] at hp
        rcases List.mem_cons.mp hp with rfl | hp'
        · refine ⟨List.mem_cons_self _ _, ?_⟩
          intro hv
          have hmm : v ∈ rest.map Prod.snd :=
            List.mem_map_of_mem Prod.snd (lookupStore_mem hlk)
          exact hnd.1 (hv ▸ hmm)
        · obtain ⟨hmem, hne⟩ := ih hlk hnd.2 p hp'
          exact ⟨List.mem_cons_of_mem _ hmem, hne⟩

theorem insertStore_of_fresh {s : List (Nat × Nat)} {k : Nat} (v : Nat)
    (h : lookupStore s k = none) : insertStore s k v = (k, v) :: s := by
  unfold insertStore
  rw [h]
  rfl

-- ------------------------------------------------------------------
-- Lemmas about `clear_thread_safe_listener`
-- ------------------------------------------------------------------

theorem clear_of_lookup_some {w : World} {id h : Nat}
    (hlk : lookupStore w.tsfn_store id = some h) :
    clear_thread_safe_listener w id =
      { w with tsfn_store := eraseStore w.tsfn_store id,
               revoked := if h ∈ w.revoked then w.revoked else h :: w.revoked,
               abortLog := w.abortLog ++ [h] } := by
  unfold clear_thread_safe_listener
  rw [hlk]
  exact abortTsfn_fst _ _

theorem clear_of_lookup_none {w : World} {id : Nat}
    (hlk : lookupStore w.tsfn_store id = none) :
    clear_thread_safe_listener w id = w := by
  unfold clear_thread_safe_listener
  rw [hlk]

-- ------------------------------------------------------------------
-- The registry invariant (spec §3, ListenerRegistry)
-- ------------------------------------------------------------------

theorem storeFresh_lookup_nextStoreId {w : World} (hw : StoreFresh w) :
    lookupStore w.tsfn_store w.nextStoreId = none :=
  lookupStore_eq_none fun p hp => Nat.ne_of_lt (hw p hp)

theorem store_fst_of_fresh {w : World} (tsfn : Nat) (hw : StoreFresh w) :
    (store_thread_safe_listener w tsfn).1 =
      { w with nextStoreId := w.nextStoreId + 1,
               tsfn_store := (w.nextStoreId, tsfn) :: w.tsfn_store } := by
  unfold store_thread_safe_listener
  rw [insertStore_of_fresh tsfn (storeFresh_lookup_nextStoreId hw)]


theorem inv_store {w : World} (tsfn : Nat) (hInv : RegInv w)
    (hrev : tsfn ∉ w.revoked)
    (hfresh : ∀ p ∈ w.tsfn_store, p.2 ≠ tsfn) :
    RegInv (store_thread_safe_listener w tsfn).1 := by
  obtain ⟨h1, h2, h3, h4⟩ := hInv
  rw [store_fst_of_fresh tsfn h4]
  refine ⟨?_, ?_, ?_, ?_⟩
  · intro p hp
    rcases List.mem_cons.mp hp with rfl | hp'
    · exact hrev
    · exact h1 p hp'
  · simp only [List.map_cons, List.nodup_cons]
    refine ⟨?_, h2⟩
    intro hmem
    obtain ⟨p, hp, hps⟩ := List.mem_map.mp hmem
    exact hfresh p hp hps
  · simp only [List.map_cons, List.nodup_cons]
    refine ⟨?_, h3⟩
    intro hmem
    obtain ⟨p, hp, hps⟩ := List.mem_map.mp hmem
    exact Nat.ne_of_lt (h4 p hp) hps
  · intro p hp
    rcases List.mem_cons.mp hp with rfl | hp'
    · exact Nat.lt_succ_self _
    · exact Nat.lt_succ_of_lt (h4 p hp')

theorem inv_clear {w : World} (id : Nat) (hInv : RegInv w) :
    RegInv (clear_thread_safe_listener w id) := by
  obtain ⟨h1, h2, h3, h4⟩ := hInv
  cases hlk : lookupStore w.tsfn_store id with
  | none => rw [clear_of_lookup_none hlk]; exact ⟨h1, h2, h3, h4⟩
  | some h =>
      rw [clear_of_lookup_some hlk]
      have herase := mem_eraseStore_ne_handle hlk h2
      refine ⟨?_, ?_, ?_, ?_⟩
      · intro p hp
        obtain ⟨hmem, hne⟩ := herase p hp
        have hold := h1 p hmem
        by_cases hm : h ∈ w.revoked <;> simp [hm]
        · exact hold
        · exact ⟨hne, hold⟩
      · exact h2.sublist ((eraseStore_sublist _ _).map Prod.snd)
      · exact h3.sublist ((eraseStore_sublist _ _).map Prod.fst)
      · intro p hp
        exact h4 p (mem_of_mem_eraseStore hp)

theorem inv_clear_all (w : World) :
    RegInv (clear_all_thread_safe_listeners w) := by
  refine ⟨?_, ?_, ?_, ?_⟩ <;>
    simp [clear_all_tsfn_store, StoreFresh]

/-- The entry `lookupStore` finds is the entry `eraseStore` removes: the
store splits around it. -/
theorem lookup_eraseStore_decomp {s : List (Nat × Nat)} {k v : Nat}
    (h : lookupStore s k = some v) :
    ∃ s₁ s₂, s = s₁ ++ (k, v) :: s₂ ∧ eraseStore s k = s₁ ++ s₂ := by
  induction s with
  | nil => simp [lookupStore] at h
  | cons p rest ih =>
      obtain ⟨a, b⟩ := p
      by_cases hk : a = k
      · simp only [lookupStore, if_pos hk] at h
        injection h with h
        subst hk
        subst h
        exact ⟨[], rest, by simp, by simp [eraseStore]⟩
      · simp only [lookupStore, if_neg hk] at h
        obtain ⟨s₁, s₂, hs, he⟩ := ih h
        refine ⟨(a, b) :: s₁, s₂, by simp [hs], ?_⟩
        simp only [eraseStore, if_neg hk, he, List.cons_append]

theorem init_event_target_eq (w : World) :
    init_event_target w =
      { w with
          nextStoreId := w.nextStoreId + 1,
          tsfn_store := insertStore w.tsfn_store w.nextStoreId w.nextHid,
          nextHid := w.nextHid + 1,
          onstatechange := some w.nextHid,
          oncompleteClear := true } := rfl

theorem init_event_target_store (w : World) (hw : StoreFresh w) :
    (init_event_target w).tsfn_store =
      (w.nextStoreId, w.nextHid) :: w.tsfn_store := by
  rw [init_event_target_eq]
  exact insertStore_of_fresh _ (storeFresh_lookup_nextStoreId hw)

theorem storeFresh_init (w : World) (hw : StoreFresh w) :
    StoreFresh (init_event_target w) := by
  intro p hp
  rw [init_event_target_store w hw] at hp
  rw [init_event_target_eq]
  rcases List.mem_cons.mp hp with rfl | hp'
  · exact Nat.lt_succ_self _
  · exact Nat.lt_succ_of_lt (hw p hp')

theorem storeFresh_iterInit (n : Nat) :
    StoreFresh (iterInit n emptyWorld) := by
  induction n with
  | zero =>
      intro p hp
      simp [emptyWorld, iterInit] at hp
  | succ n ih => exact storeFresh_init _ ih

theorem iterInit_length (n : Nat) :
    (iterInit n emptyWorld).tsfn_store.length = n := by
  induction n with
  | zero => rfl
  | succ n ih =>
      show (init_event_target (iterInit n emptyWorld)).tsfn_store.length = n + 1
      rw [init_event_target_store _ (storeFresh_iterInit n)]
      simp [ih]

-- ------------------------------------------------------------------
-- Claim theorems
-- ------------------------------------------------------------------

/-- C2: for every registry state, `drain_all`
(`clear_all_thread_safe_listeners`) leaves the mapping empty and performs
one `abort()` per drained entry — so a handle registered once is revoked
exactly once; a second call on the resulting empty registry is a no-op; and
a handle already removed by a prior `unregister` is not revoked a second
time by the drain. -/
theorem drain_all_spec (w : World) (idA hA : Nat)
    (hcount : (w.tsfn_store.map Prod.snd).count hA = 1)
    (hlook : lookupStore w.tsfn_store idA = some hA) :
    (clear_all_thread_safe_listeners w).tsfn_store = [] ∧
    (clear_all_thread_safe_listeners w).abortLog =
      w.abortLog ++ w.tsfn_store.map Prod.snd ∧
    (clear_all_thread_safe_listeners w).abortLog.count hA =
      w.abortLog.count hA + 1 ∧
    clear_all_thread_safe_listeners (clear_all_thread_safe_listeners w) =
      clear_all_thread_safe_listeners w ∧
    (clear_all_thread_safe_listeners
        (clear_thread_safe_listener w idA)).abortLog.count hA =
      w.abortLog.count hA + 1 := by
  obtain ⟨s₁, s₂, hs, he⟩ := lookup_eraseStore_decomp hlook
  have hzero : ((s₁ ++ s₂).map Prod.snd).count hA = 0 := by
    rw [hs] at hcount
    simp only [List.map_append, List.map_cons, List.count_append,
      List.count_cons_self] at hcount
    simp only [List.map_append, List.count_append]
    omega
  refine ⟨clear_all_tsfn_store w, clear_all_abortLog w, ?_,
    clear_all_of_empty _ (clear_all_tsfn_store w), ?_⟩
  · rw [clear_all_abortLog, List.count_append, hcount]
  · rw [clear_of_lookup_some hlook, clear_all_abortLog]
    simp only [he, List.count_append, hzero]
    simp

/-- C2 witness: the general theorem applied to the sample state with two
registered listeners, handle 10 registered under uuid 0. -/
theorem drain_all_spec_witness :
    (sampleWorld.tsfn_store.map Prod.snd).count 10 = 1 ∧
    lookupStore sampleWorld.tsfn_store 0 = some 10 ∧
    ((clear_all_thread_safe_listeners sampleWorld).tsfn_store = [] ∧
     (clear_all_thread_safe_listeners sampleWorld).abortLog =
       sampleWorld.abortLog ++ sampleWorld.tsfn_store.map Prod.snd ∧
     (clear_all_thread_safe_listeners sampleWorld).abortLog.count 10 =
       sampleWorld.abortLog.count 10 + 1 ∧
     clear_all_thread_safe_listeners
         (clear_all_thread_safe_listeners sampleWorld) =
       clear_all_thread_safe_listeners sampleWorld ∧
     (clear_all_thread_safe_listeners
         (clear_thread_safe_listener sampleWorld 0)).abortLog.count 10 =
       sampleWorld.abortLog.count 10 + 1) :=
  ⟨by decide, by decide, drain_all_spec sampleWorld 0 10 (by decide) (by decide)⟩

/-- C3: `unregister` (`clear_thread_safe_listener`) removes the entry for a
present id and aborts the removed handle exactly once; an absent id is a
silent no-op, so a second `unregister` of the same id (over a
duplicate-free key set, as in a `HashMap`) behaves like one; and `register`
followed immediately by `unregister` of the returned id leaves the registry
empty with the handle revoked. -/
theorem unregister_spec (w : World) (id h : Nat)
    (hkeys : (w.tsfn_store.map Prod.fst).Nodup) :
    (lookupStore w.tsfn_store id = some h →
      (clear_thread_safe_listener w id).tsfn_store =
        eraseStore w.tsfn_store id ∧
      (clear_thread_safe_listener w id).abortLog = w.abortLog ++ [h] ∧
      h ∈ (clear_thread_safe_listener w id).revoked) ∧
    (lookupStore w.tsfn_store id = none →
      clear_thread_safe_listener w id = w) ∧
    clear_thread_safe_listener (clear_thread_safe_listener w id) id =
      clear_thread_safe_listener w id ∧
    (w.tsfn_store = [] →
      (clear_thread_safe_listener (store_thread_safe_listener w h).1
          (store_thread_safe_listener w h).2).tsfn_store = [] ∧
      h ∈ (clear_thread_safe_listener (store_thread_safe_listener w h).1
          (store_thread_safe_listener w h).2).revoked) := by
  refine ⟨?_, fun hlk => clear_of_lookup_none hlk, ?_, ?_⟩
  · intro hlk
    rw [clear_of_lookup_some hlk]
    refine ⟨rfl, rfl, ?_⟩
    by_cases hm : h ∈ w.revoked <;> simp [hm]
  · cases hlk : lookupStore w.tsfn_store id with
    | none => rw [clear_of_lookup_none hlk, clear_of_lookup_none hlk]
    | some h' =>
        have h1 : (clear_thread_safe_listener w id).tsfn_store =
            eraseStore w.tsfn_store id := by
          rw [clear_of_lookup_some hlk]
        apply clear_of_lookup_none
        rw [h1]
        exact lookupStore_eraseStore_self hkeys
  · intro hempty
    have hnone : lookupStore w.tsfn_store w.nextStoreId = none := by
      rw [hempty]; rfl
    have hsnd : (store_thread_safe_listener w h).2 = w.nextStoreId := rfl
    have hstore : (store_thread_safe_listener w h).1.tsfn_store =
        [(w.nextStoreId, h)] := by
      show insertStore w.tsfn_store w.nextStoreId h = _
      rw [insertStore_of_fresh _ hnone, hempty]
    have hlk2 : lookupStore (store_thread_safe_listener w h).1.tsfn_store
        (store_thread_safe_listener w h).2 = some h := by
      rw [hstore, hsnd]
      simp [lookupStore]
    rw [clear_of_lookup_some hlk2]
    refine ⟨?_, ?_⟩
    · show eraseStore (store_thread_safe_listener w h).1.tsfn_store
          (store_thread_safe_listener w h).2 = []
      rw [hstore, hsnd]
      simp [eraseStore]
    · by_cases hm : h ∈ (store_thread_safe_listener w h).1.revoked <;> simp [hm]

/-- C3 witness: the general theorem applied to the sample state at uuid 0
(handle 10 registered), and its register-then-unregister clause exercised on
the empty store of a fresh construction. -/
theorem unregister_spec_witness :
    (sampleWorld.tsfn_store.map Prod.fst).Nodup ∧
    ((lookupStore sampleWorld.tsfn_store 0 = some 10 →
      (clear_thread_safe_listener sampleWorld 0).tsfn_store =
        eraseStore sampleWorld.tsfn_store 0 ∧
      (clear_thread_safe_listener sampleWorld 0).abortLog =
        sampleWorld.abortLog ++ [10] ∧
      10 ∈ (clear_thread_safe_listener sampleWorld 0).revoked) ∧
    (lookupStore sampleWorld.tsfn_store 0 = none →
      clear_thread_safe_listener sampleWorld 0 = sampleWorld) ∧
    clear_thread_safe_listener (clear_thread_safe_listener sampleWorld 0) 0 =
      clear_thread_safe_listener sampleWorld 0 ∧
    (sampleWorld.tsfn_store = [] →
      (clear_thread_safe_listener (store_thread_safe_listener sampleWorld 10).1
          (store_thread_safe_listener sampleWorld 10).2).tsfn_store = [] ∧
      10 ∈ (clear_thread_safe_listener
          (store_thread_safe_listener sampleWorld 10).1
          (store_thread_safe_listener sampleWorld 10).2).revoked)) :=
  ⟨by decide, unregister_spec sampleWorld 0 10 (by decide)⟩

/-- C4: under counter freshness (which every state reachable from a fresh
construction satisfies), `register` (`store_thread_safe_listener`) generates
an id colliding with no currently registered id, inserts the handle under
it, returns that id, leaves every previous entry unchanged, and preserves
freshness.  The operation is a total function: it never fails. -/
theorem register_fresh_spec (w : World) (tsfn : Nat) (hw : StoreFresh w) :
    (store_thread_safe_listener w tsfn).2 ∉ w.tsfn_store.map Prod.fst ∧
    lookupStore (store_thread_safe_listener w tsfn).1.tsfn_store
      (store_thread_safe_listener w tsfn).2 = some tsfn ∧
    (∀ p ∈ w.tsfn_store, p ∈ (store_thread_safe_listener w tsfn).1.tsfn_store) ∧
    (store_thread_safe_listener w tsfn).1.tsfn_store.length =
      w.tsfn_store.length + 1 ∧
    StoreFresh (store_thread_safe_listener w tsfn).1 := by
  have hsnd : (store_thread_safe_listener w tsfn).2 = w.nextStoreId := rfl
  have hstore : (store_thread_safe_listener w tsfn).1.tsfn_store =
      (w.nextStoreId, tsfn) :: w.tsfn_store := by
    show insertStore w.tsfn_store w.nextStoreId tsfn = _
    exact insertStore_of_fresh _ (storeFresh_lookup_nextStoreId hw)
  refine ⟨?_, ?_, ?_, ?_, ?_⟩
  · rw [hsnd]
    intro hmem
    obtain ⟨p, hp, hps⟩ := List.mem_map.mp hmem
    exact Nat.ne_of_lt (hw p hp) hps
  · rw [hstore, hsnd]
    simp [lookupStore]
  · intro p hp
    rw [hstore]
    exact List.mem_cons_of_mem _ hp
  · rw [hstore]
    rfl
  · intro p hp
    rw [hstore] at hp
    have hnext : (store_thread_safe_listener w tsfn).1.nextStoreId =
        w.nextStoreId + 1 := rfl
    rw [hnext]
    rcases List.mem_cons.mp hp with rfl | hp'
    · exact Nat.lt_succ_self _
    · exact Nat.lt_succ_of_lt (hw p hp')

/-- C4 witness: registering handle 12 in the sample state. -/
theorem register_fresh_spec_witness :
    StoreFresh sampleWorld ∧
    ((store_thread_safe_listener sampleWorld 12).2 ∉
        sampleWorld.tsfn_store.map Prod.fst ∧
     lookupStore (store_thread_safe_listener sampleWorld 12).1.tsfn_store
        (store_thread_safe_listener sampleWorld 12).2 = some 12 ∧
     (∀ p ∈ sampleWorld.tsfn_store,
        p ∈ (store_thread_safe_listener sampleWorld 12).1.tsfn_store) ∧
     (store_thread_safe_listener sampleWorld 12).1.tsfn_store.length =
        sampleWorld.tsfn_store.length + 1 ∧
     StoreFresh (store_thread_safe_listener sampleWorld 12).1) :=
  ⟨by decide, register_fresh_spec sampleWorld 12 (by decide)⟩

/-- C5: the registry invariant — every registered id refers to a
not-yet-aborted handle, handles and keys are duplicate-free, the counter is
fresh — is preserved by `register` (for a handle that is active and not
already registered, as holds for every handle `init_event_target` creates),
by `unregister`, and by `drain_all`; removal and revocation happen in the
same atomic step, so no revoked handle remains registered. -/
theorem registry_invariant_preserved (w : World) (hInv : RegInv w) :
    (∀ tsfn, tsfn ∉ w.revoked → (∀ p ∈ w.tsfn_store, p.2 ≠ tsfn) →
      RegInv (store_thread_safe_listener w tsfn).1) ∧
    (∀ id, RegInv (clear_thread_safe_listener w id)) ∧
    RegInv (clear_all_thread_safe_listeners w) := by
  exact ⟨fun tsfn hrev hfresh => inv_store tsfn hInv hrev hfresh,
    fun id => inv_clear id hInv, inv_clear_all w⟩

/-- C5 witness: the invariant holds for the sample state and is preserved
there by registering handle 12, unregistering uuid 0, and draining. -/
theorem registry_invariant_preserved_witness :
    RegInv sampleWorld ∧
    RegInv (store_thread_safe_listener sampleWorld 12).1 ∧
    RegInv (clear_thread_safe_listener sampleWorld 0) ∧
    RegInv (clear_all_thread_safe_listeners sampleWorld) :=
  ⟨by decide,
   (registry_invariant_preserved sampleWorld (by decide)).1 12
     (by decide) (by decide),
   (registry_invariant_preserved sampleWorld (by decide)).2.1 0,
   (registry_invariant_preserved sampleWorld (by decide)).2.2⟩

/-- C10: `unregister` and `drain_all` surface no error to their caller.
Both are total functions returning the new state (unit on the JS side):
even on a state where the removed handle was already aborted — so that the
`abort()` they perform returns an error — the entry is still removed, the
drain still empties the map, and the discarded error changes nothing else. -/
theorem clear_ops_discard_abort_errors (w : World) (id h : Nat)
    (hlk : lookupStore w.tsfn_store id = some h) (hrev : h ∈ w.revoked) :
    (abortTsfn { w with tsfn_store := eraseStore w.tsfn_store id } h).2 =
      Except.error () ∧
    (clear_thread_safe_listener w id).tsfn_store =
      eraseStore w.tsfn_store id ∧
    (clear_thread_safe_listener w id).revoked = w.revoked ∧
    (clear_thread_safe_listener w id).abortLog = w.abortLog ++ [h] ∧
    (clear_all_thread_safe_listeners w).tsfn_store = [] := by
  have hrev' : h ∈ ({ w with tsfn_store := eraseStore w.tsfn_store id } : World).revoked := hrev
  refine ⟨?_, ?_, ?_, ?_, clear_all_tsfn_store w⟩
  · unfold abortTsfn
    rw [if_pos hrev']
  · rw [clear_of_lookup_some hlk]
  · rw [clear_of_lookup_some hlk]
    show (if h ∈ w.revoked then w.revoked else h :: w.revoked) = w.revoked
    rw [if_pos hrev]
  · rw [clear_of_lookup_some hlk]

/-- C10 witness: unregistering uuid 0 of the sample state whose handle 10 is
already aborted — the inner `abort()` errors, the operation still completes. -/
theorem clear_ops_discard_abort_errors_witness :
    lookupStore sampleRevokedWorld.tsfn_store 0 = some 10 ∧
    10 ∈ sampleRevokedWorld.revoked ∧
    ((abortTsfn { sampleRevokedWorld with
        tsfn_store := eraseStore sampleRevokedWorld.tsfn_store 0 } 10).2 =
      Except.error () ∧
     (clear_thread_safe_listener sampleRevokedWorld 0).tsfn_store =
       eraseStore sampleRevokedWorld.tsfn_store 0 ∧
     (clear_thread_safe_listener sampleRevokedWorld 0).revoked =
       sampleRevokedWorld.revoked ∧
     (clear_thread_safe_listener sampleRevokedWorld 0).abortLog =
       sampleRevokedWorld.abortLog ++ [10] ∧
     (clear_all_thread_safe_listeners sampleRevokedWorld).tsfn_store = []) :=
  ⟨by decide, by decide,
   clear_ops_discard_abort_errors sampleRevokedWorld 0 10 (by decide) (by decide)⟩

/-- C1: when the engine signals render completion after `init_event_target`
has wired the handlers, the installed completion handler drains the
registry: the mapping is empty, the controller is in the terminal `Closed`
state (a further completion signal is a no-op), and a synthetic event
offered to any handle that was registered before completion — the
state-change listener included — is not delivered. -/
theorem render_complete_closes (w : World) (e : Event) (h : Nat)
    (hw : StoreFresh w)
    (hpre : h ∈ (init_event_target w).tsfn_store.map Prod.snd) :
    (fire_complete (init_event_target w)).tsfn_store = [] ∧
    Closed (fire_complete (init_event_target w)) ∧
    callTsfn (fire_complete (init_event_target w)) h e =
      (fire_complete (init_event_target w), false) ∧
    fire_complete (fire_complete (init_event_target w)) =
      fire_complete (init_event_target w) := by
  set w1 := init_event_target w with hw1
  have hflag : w1.oncompleteClear = true := rfl
  have hfc : fire_complete w1 = clear_all_thread_safe_listeners w1 := by
    unfold fire_complete
    rw [hflag]
    simp
  set w2 := clear_all_thread_safe_listeners w1 with hw2
  have hstore2 : w2.tsfn_store = [] := clear_all_tsfn_store w1
  have hrevall : ∀ x ∈ w1.tsfn_store.map Prod.snd, x ∈ w2.revoked := by
    intro x hx
    exact (clear_all_mem_revoked w1 x).mpr (Or.inl hx)
  have hosc : w2.onstatechange = some w.nextHid := by
    have h1 : w2.onstatechange = w1.onstatechange :=
      (clear_all_preserves w1).2.2.1
    rw [h1]
    rfl
  have hhidmem : w.nextHid ∈ w1.tsfn_store.map Prod.snd := by
    rw [hw1, init_event_target_store w hw]
    simp
  have hnodeliver : ∀ x ∈ w2.revoked, ∀ e' : Event,
      callTsfn w2 x e' = (w2, false) := by
    intro x hx e'
    unfold callTsfn
    rw [if_pos hx]
  have hterm : fire_complete w2 = w2 := by
    unfold fire_complete
    have hflag2 : w2.oncompleteClear = true := by
      rw [(clear_all_preserves w1).2.2.2.1, hflag]
    rw [hflag2]
    simp only [if_pos]
    exact clear_all_of_empty w2 hstore2
  refine ⟨by rw [hfc]; exact hstore2, ?_, ?_, ?_⟩
  · rw [hfc]
    refine ⟨hstore2, ?_⟩
    intro e'
    unfold fire_statechange
    rw [hosc]
    exact hnodeliver _ (hrevall _ hhidmem) e'
  · rw [hfc]
    exact hnodeliver h (hrevall h hpre) e
  · rw [hfc]
    exact hterm

/-- C1 witness: the sample state (whose pre-registered state-change listener
is handle 10) wired and completed; handle 10 receives nothing afterwards. -/
theorem render_complete_closes_witness :
    StoreFresh sampleWorld ∧
    10 ∈ (init_event_target sampleWorld).tsfn_store.map Prod.snd ∧
    ((fire_complete (init_event_target sampleWorld)).tsfn_store = [] ∧
     Closed (fire_complete (init_event_target sampleWorld)) ∧
     callTsfn (fire_complete (init_event_target sampleWorld)) 10
         (Event.mk "statechange") =
       (fire_complete (init_event_target sampleWorld), false) ∧
     fire_complete (fire_complete (init_event_target sampleWorld)) =
       fire_complete (init_event_target sampleWorld)) :=
  ⟨by decide, by decide,
   render_complete_closes sampleWorld (Event.mk "statechange") 10
     (by decide) (by decide)⟩

/-- C9: each call of the event-subscription entry point
(`init_event_target`) registers one additional handle — the returned store
id being discarded (`let _ = ...`) and only the map retaining it — and
overwrites the engine's state-change and completion handlers with new ones;
it removes and revokes nothing registered earlier, so after `n` calls on a
fresh context the registry holds `n` entries. -/
theorem init_event_target_accumulates (w : World) (hw : StoreFresh w) :
    (init_event_target w).tsfn_store.length = w.tsfn_store.length + 1 ∧
    (∀ p ∈ w.tsfn_store, p ∈ (init_event_target w).tsfn_store) ∧
    (init_event_target w).revoked = w.revoked ∧
    (init_event_target w).abortLog = w.abortLog ∧
    (init_event_target w).onstatechange = some w.nextHid ∧
    (init_event_target w).oncompleteClear = true ∧
    (∀ n, (iterInit n emptyWorld).tsfn_store.length = n) := by
  refine ⟨?_, ?_, rfl, rfl, rfl, rfl, iterInit_length⟩
  · rw [init_event_target_store w hw]
    rfl
  · intro p hp
    rw [init_event_target_store w hw]
    exact List.mem_cons_of_mem _ hp

/-- C9 witness: one further subscription call on the sample state (which
already holds two listeners) gives three entries, keeps both old entries
unrevoked, and rewires both handlers; three calls on a fresh context give
three entries. -/
theorem init_event_target_accumulates_witness :
    StoreFresh sampleWorld ∧
    ((init_event_target sampleWorld).tsfn_store.length =
       sampleWorld.tsfn_store.length + 1 ∧
     (∀ p ∈ sampleWorld.tsfn_store,
        p ∈ (init_event_target sampleWorld).tsfn_store) ∧
     (init_event_target sampleWorld).revoked = sampleWorld.revoked ∧
     (init_event_target sampleWorld).abortLog = sampleWorld.abortLog ∧
     (init_event_target sampleWorld).onstatechange = some sampleWorld.nextHid ∧
     (init_event_target sampleWorld).oncompleteClear = true ∧
     (∀ n, (iterInit n emptyWorld).tsfn_store.length = n)) ∧
    (iterInit 3 emptyWorld).tsfn_store.length = 3 :=
  ⟨by decide, init_event_target_accumulates sampleWorld (by decide), by decide⟩

/-- C6 counterexample: dropping the controller is not "exactly as if
`drain_all()` had been called".  On the sample state, `drain_all` aborts the
registered handles 10 and 11 (once each), while dropping the controller
aborts nothing — the source has no `Drop` implementation, so no revocation
runs; the two resulting states differ. -/
theorem drop_controller_counterexample :
    (drop_controller sampleWorld).revoked = [] ∧
    (drop_controller sampleWorld).abortLog.count 10 = 0 ∧
    (clear_all_thread_safe_listeners sampleWorld).abortLog.count 10 = 1 ∧
    (clear_all_thread_safe_listeners sampleWorld).revoked ≠ [] ∧
    drop_controller sampleWorld ≠
      clear_all_thread_safe_listeners sampleWorld := by
  decide

/-- C6 (amended): when the controller is dropped, the registry map is
dropped with it — the mapping ceases to exist — but no handle is revoked by
code of this repository: there is no `Drop` implementation (one exists only
as a commented-out debug print), so `abort()` is never called on the stored
handles, unlike `drain_all`. -/
theorem drop_controller_spec (w : World) :
    (drop_controller w).tsfn_store = [] ∧
    (drop_controller w).revoked = w.revoked ∧
    (drop_controller w).abortLog = w.abortLog := by
  exact ⟨rfl, rfl, rfl⟩

/-- Helper: the `as usize` cast is the identity on naturals within the
`usize` range. -/
theorem f64_as_usize_natCast (l : Nat) (hl : l ≤ usizeMax) :
    f64_as_usize (JsNum.val (l : ℚ)) = l := by
  show (if ((l : ℚ)) < 0 then 0 else min (Int.toNat ⌊(l : ℚ)⌋) usizeMax) = l
  rw [if_neg (by exact not_lt.mpr (by positivity))]
  rw [Int.floor_natCast, Int.toNat_natCast]
  exact min_eq_left hl

/-- C7: for a controller built from a valid triple — positive integer
channel count and length, any rate — `get_length` returns exactly the
`length` passed at construction and leaves the controller untouched (it is
a pure read; callable in any state, being a total function of the
controller). -/
theorem get_length_returns_constructed (c l : Nat) (r : ℚ)
    (hl : l ≤ usizeMax) :
    get_length (constructor (JsNum.val (c : ℚ)) (JsNum.val (l : ℚ))
        (JsNum.val r)) =
      (l, constructor (JsNum.val (c : ℚ)) (JsNum.val (l : ℚ))
        (JsNum.val r)) := by
  unfold get_length
  rw [Prod.mk.injEq]
  refine ⟨?_, rfl⟩
  show f64_as_usize (JsNum.val (l : ℚ)) = l
  exact f64_as_usize_natCast l hl

/-- C7 witness: the spec's concrete scenario, `(2, 44100, 44100.0)`. -/
theorem get_length_returns_constructed_witness :
    (44100 : Nat) ≤ usizeMax ∧
    get_length (constructor (JsNum.val ((2 : Nat) : ℚ))
        (JsNum.val ((44100 : Nat) : ℚ)) (JsNum.val ((44100 : Nat) : ℚ))) =
      (44100, constructor (JsNum.val ((2 : Nat) : ℚ))
        (JsNum.val ((44100 : Nat) : ℚ)) (JsNum.val ((44100 : Nat) : ℚ))) :=
  ⟨by decide, get_length_returns_constructed 2 44100 ((44100 : Nat) : ℚ)
    (by decide)⟩

/-- C8: the constructor coerces its numeric arguments with the `as usize`
float-to-integer cast before handing them to the engine: a finite
non-integer positive argument (in range) is truncated toward zero — the
result sits strictly between `q - 1` and `q` — a negative or NaN argument
becomes 0, and the core rejects nothing itself: the engine receives exactly
the coerced values for every argument triple. -/
theorem constructor_coerces_arguments (q : ℚ) (hpos : 0 < q)
    (hbound : q ≤ ((usizeMax : Nat) : ℚ)) (hfrac : q.den ≠ 1) :
    ((f64_as_usize (JsNum.val q) : ℚ) < q ∧
     q < (f64_as_usize (JsNum.val q) : ℚ) + 1) ∧
    (∀ q', q' < 0 → f64_as_usize (JsNum.val q') = 0) ∧
    f64_as_usize JsNum.nan = 0 ∧
    (∀ a b c, (constructor a b c).context =
      OfflineAudioContext.new (f64_as_usize a) (f64_as_usize b) c) := by
  have hfl0 : (0 : ℤ) ≤ ⌊q⌋ := Int.floor_nonneg.mpr hpos.le
  have hflle : ⌊q⌋ ≤ (usizeMax : ℤ) := by
    have h1 := Int.floor_le_floor hbound
    rwa [Int.floor_natCast] at h1
  have hcast : f64_as_usize (JsNum.val q) = Int.toNat ⌊q⌋ := by
    show (if q < 0 then 0 else min (Int.toNat ⌊q⌋) usizeMax) = Int.toNat ⌊q⌋
    rw [if_neg (not_lt.mpr hpos.le)]
    exact min_eq_left (Int.toNat_le.mpr hflle)
  have hQ : ((f64_as_usize (JsNum.val q) : Nat) : ℚ) = ((⌊q⌋ : ℤ) : ℚ) := by
    rw [hcast]
    norm_cast
    exact Int.toNat_of_nonneg hfl0
  refine ⟨⟨?_, ?_⟩, ?_, rfl, fun a b c => rfl⟩
  · rw [hQ]
    refine lt_of_le_of_ne (Int.floor_le q) ?_
    intro heq
    apply hfrac
    rw [← heq]
    exact Rat.den_intCast _
  · rw [hQ]
    exact_mod_cast Int.lt_floor_add_one q
  · intro q' hq'
    show (if q' < 0 then 0 else min (Int.toNat ⌊q'⌋) usizeMax) = 0
    rw [if_pos hq']

/-- C8 witness: the non-integer argument 5/2 is truncated (the cast yields
a value strictly between 3/2 and 5/2, namely 2). -/
theorem constructor_coerces_arguments_witness :
    (0 : ℚ) < q52 ∧ q52 ≤ ((usizeMax : Nat) : ℚ) ∧ q52.den ≠ 1 ∧
    (((f64_as_usize (JsNum.val q52) : ℚ) < q52 ∧
      q52 < (f64_as_usize (JsNum.val q52) : ℚ) + 1) ∧
     (∀ q', q' < 0 → f64_as_usize (JsNum.val q') = 0) ∧
     f64_as_usize JsNum.nan = 0 ∧
     (∀ a b c, (constructor a b c).context =
       OfflineAudioContext.new (f64_as_usize a) (f64_as_usize b) c)) :=
  ⟨by decide, by decide, by decide,
   constructor_coerces_arguments q52 (by decide) (by decide) (by decide)⟩
